import Mathlib

/-!
Verification of the gigawork workflow-extraction core against its specification.

The definitions below are a shallow embedding of the Python sources:
  * `gigawork/workflow_recognition.py` (workflow classifier and path predicates),
  * `gigawork/extractors.py` (`FilesExtractor`, `PathSeparatorFilesExtractor`,
    `WorkflowsExtractor`, the `Entry` record and the content store),
together with faithful models of the external pieces the code calls into:
SHA-256 (Python `hashlib.sha256(...).hexdigest()`), strict UTF-8 decoding
(Python `bytes.decode()`), and the relevant fragment of Python `re` semantics
for the two concrete regular expressions appearing in the source.  The YAML
parser (`ruamel.yaml` via `read_yaml`) and the JSON-schema validator
(`jsonschema.validate`) are external libraries and are modelled as oracles:
functions returning `Except Unit _`, where `Except.error` stands for a raised
Python exception.

Bytes are modelled as `List Nat` with values below 256; a raised exception is
`Except.error ()` or `none` depending on the calling convention of the
surrounding code.
-/

namespace Sha256

/-- Rotate a 32-bit word right by `n` bits. -/
def rotr (n x : Nat) : Nat := ((x >>> n) ||| (x <<< (32 - n))) % (2 ^ 32)

/-- Bitwise complement within 32 bits. -/
def bnot32 (x : Nat) : Nat := (2 ^ 32 - 1) - x

/-- The eight initial hash values of SHA-256 (FIPS 180-4). -/
def initH : List Nat :=
  [1779033703, 3144134277, 1013904242, 2773480762,
   1359893119, 2600822924, 528734635, 1541459225]

/-- The 64 round constants of SHA-256 (FIPS 180-4). -/
def roundK : List Nat :=
  [1116352408, 1899447441, 3049323471, 3921009573, 961987163,
   1508970993, 2453635748, 2870763221, 3624381080, 310598401,
   607225278, 1426881987, 1925078388, 2162078206, 2614888103,
   3248222580, 3835390401, 4022224774, 264347078, 604807628,
   770255983, 1249150122, 1555081692, 1996064986, 2554220882,
   2821834349, 2952996808, 3210313671, 3336571891, 3584528711,
   113926993, 338241895, 666307205, 773529912, 1294757372,
   1396182291, 1695183700, 1986661051, 2177026350, 2456956037,
   2730485921, 2820302411, 3259730800, 3345764771, 3516065817,
   3600352804, 4094571909, 275423344, 430227734, 506948616,
   659060556, 883997877, 958139571, 1322822218, 1537002063,
   1747873779, 1955562222, 2024104815, 2227730452, 2361852424,
   2428436474, 2756734187, 3204031479, 3329325298]

/-- Big-endian bytes of `x`, exactly `w` bytes wide. -/
def beBytes : Nat → Nat → List Nat
  | _, 0 => []
  | x, w + 1 => beBytes (x / 256) w ++ [x % 256]

/-- SHA-256 padding: append 0x80, zero bytes, then the 8-byte big-endian bit length. -/
def pad (msg : List Nat) : List Nat :=
  let len := msg.length
  let zeros := (119 - (len % 64)) % 64
  msg ++ [0x80] ++ List.replicate zeros 0 ++ beBytes (len * 8) 8

/-- Group 4 consecutive bytes into big-endian 32-bit words. -/
def toWords : List Nat → List Nat
  | a :: b :: c :: d :: rest =>
      ((((a % 256) * 256 + b % 256) * 256 + c % 256) * 256 + d % 256) :: toWords rest
  | _ => []

/-- Split a byte list into successive 64-byte blocks (`n` counts blocks). -/
def chunksGo : Nat → List Nat → List (List Nat)
  | 0, _ => []
  | n + 1, l => l.take 64 :: chunksGo n (l.drop 64)

/-- Split a padded message into its 64-byte blocks. -/
def chunks (l : List Nat) : List (List Nat) := chunksGo (l.length / 64) l

/-- Message-schedule extension step, working on the reversed word list. -/
def extendRev : Nat → List Nat → List Nat
  | 0, r => r
  | n + 1, r =>
      let s0 := rotr 7 (r.getD 14 0) ^^^ rotr 18 (r.getD 14 0) ^^^ (r.getD 14 0 >>> 3)
      let s1 := rotr 17 (r.getD 1 0) ^^^ rotr 19 (r.getD 1 0) ^^^ (r.getD 1 0 >>> 10)
      extendRev n (((r.getD 15 0 + s0 + r.getD 6 0 + s1) % 2 ^ 32) :: r)

/-- The 64-word message schedule of one block. -/
def schedule (block : List Nat) : List Nat :=
  (extendRev 48 (toWords block).reverse).reverse

/-- One compression round; the state is (a, b, c, d, e, f, g, h). -/
def round (st : Nat × Nat × Nat × Nat × Nat × Nat × Nat × Nat) (wk : Nat × Nat) :
    Nat × Nat × Nat × Nat × Nat × Nat × Nat × Nat :=
  let (a, b, c, d, e, f, g, h) := st
  let (w, k) := wk
  let S1 := rotr 6 e ^^^ rotr 11 e ^^^ rotr 25 e
  let ch := (e &&& f) ^^^ (bnot32 e &&& g)
  let t1 := (h + S1 + ch + k + w) % 2 ^ 32
  let S0 := rotr 2 a ^^^ rotr 13 a ^^^ rotr 22 a
  let maj := (a &&& b) ^^^ (a &&& c) ^^^ (b &&& c)
  let t2 := (S0 + maj) % 2 ^ 32
  ((t1 + t2) % 2 ^ 32, a, b, c, (d + t1) % 2 ^ 32, e, f, g)

/-- Compress one 64-byte block into the running hash (list of 8 words). -/
def processBlock (h : List Nat) (block : List Nat) : List Nat :=
  let ws := schedule block
  let init := (h.getD 0 0, h.getD 1 0, h.getD 2 0, h.getD 3 0,
               h.getD 4 0, h.getD 5 0, h.getD 6 0, h.getD 7 0)
  let (a, b, c, d, e, f, g, hh) := (ws.zip roundK).foldl round init
  [(h.getD 0 0 + a) % 2 ^ 32, (h.getD 1 0 + b) % 2 ^ 32,
   (h.getD 2 0 + c) % 2 ^ 32, (h.getD 3 0 + d) % 2 ^ 32,
   (h.getD 4 0 + e) % 2 ^ 32, (h.getD 5 0 + f) % 2 ^ 32,
   (h.getD 6 0 + g) % 2 ^ 32, (h.getD 7 0 + hh) % 2 ^ 32]

/-- Lowercase hexadecimal digit (0-9, a-f). -/
def hexDigit (n : Nat) : Char := if n < 10 then Char.ofNat (48 + n) else Char.ofNat (87 + n)

/-- Lowercase hexadecimal rendering of `x`, exactly `w` digits wide. -/
def toHexFix : Nat → Nat → List Char
  | _, 0 => []
  | x, w + 1 => toHexFix (x / 16) w ++ [hexDigit (x % 16)]

/-- SHA-256 digest of a byte sequence as a lowercase hexadecimal string: the embedding
of Python `hashlib.sha256(data).hexdigest()`.  Validated against the FIPS 180-4 test
vectors for the empty message and for `"abc"` (see `sha256hex_empty` below). -/
def sha256hex (msg : List Nat) : String :=
  let final := (chunks (pad msg)).foldl processBlock initH
  String.mk (final.foldr (fun w acc => toHexFix w 8 ++ acc) [])

end Sha256

namespace Utf8

/-- Whether a byte is a UTF-8 continuation byte (0x80-0xBF). -/
def isCont (b : Nat) : Bool := 0x80 ≤ b && b < 0xC0

/-- Strict UTF-8 decoding of a byte sequence, the embedding of Python
`bytes.decode()` with its default strict error handling: `none` is a raised
`UnicodeDecodeError`.  Rejects truncated sequences, stray continuation bytes,
overlong encodings, surrogate code points, and code points above 0x10FFFF. -/
def decodeUtf8 : List Nat → Option (List Char)
  | [] => some []
  | b :: rest =>
    if b < 0x80 then
      (decodeUtf8 rest).map (fun cs => Char.ofNat b :: cs)
    else if b < 0xC2 then none
    else if b < 0xE0 then
      match rest with
      | c :: rest2 =>
        if isCont c then
          (decodeUtf8 rest2).map (fun cs => Char.ofNat ((b - 0xC0) * 64 + (c - 0x80)) :: cs)
        else none
      | [] => none
    else if b < 0xF0 then
      match rest with
      | c :: d :: rest2 =>
        if isCont c && isCont d then
          let cp := (b - 0xE0) * 4096 + (c - 0x80) * 64 + (d - 0x80)
          if cp < 0x800 || (0xD800 ≤ cp && cp < 0xE000) then none
          else (decodeUtf8 rest2).map (fun cs => Char.ofNat cp :: cs)
        else none
      | _ => none
    else if b < 0xF5 then
      match rest with
      | c :: d :: e :: rest2 =>
        if isCont c && isCont d && isCont e then
          let cp := (b - 0xF0) * 262144 + (c - 0x80) * 4096 + (d - 0x80) * 64 + (e - 0x80)
          if cp < 0x10000 || 0x10FFFF < cp then none
          else (decodeUtf8 rest2).map (fun cs => Char.ofNat cp :: cs)
        else none
      | _ => none
    else none

/-- UTF-8 decoding to a `String`; `none` is a raised `UnicodeDecodeError`. -/
def decodeUtf8Str (bs : List Nat) : Option String := (decodeUtf8 bs).map String.mk

end Utf8

/-!
Embedding of `gigawork/workflow_recognition.py`.

The module compiles two regular expressions:
  `WORKFLOW_REGEX = re.compile(r"^\.github/workflows/[^/]*\.(yml|yaml)$")` and
  `KEY_PRESENT = r"[\"']?%s[\"']?\s*:"`.
Their matching semantics on the only patterns the module instantiates are embedded
directly as decidable character-list predicates.
-/

/-- The double-quote character. -/
def dquote : Char := Char.ofNat 34

/-- The single-quote character. -/
def squote : Char := Char.ofNat 39

/-- Python `re` whitespace class `\s` on str patterns: exactly the code
points `Py_UNICODE_ISSPACE` accepts — tab through carriage return (0x09-0x0D),
the information separators 0x1C-0x1F, space, NEL (U+0085), NBSP (U+00A0),
Ogham space mark (U+1680), the typographic spaces U+2000-U+200A, the line and
paragraph separators U+2028/U+2029, narrow no-break space (U+202F), medium
mathematical space (U+205F), and ideographic space (U+3000). -/
def isPySpace (c : Char) : Bool :=
  let n := c.toNat
  (9 ≤ n && n ≤ 13) || (28 ≤ n && n ≤ 31) || n = 32 || n = 0x85 || n = 0xA0 ||
    n = 0x1680 || (0x2000 ≤ n && n ≤ 0x200A) || n = 0x2028 || n = 0x2029 ||
    n = 0x202F || n = 0x205F || n = 0x3000

/-- Whether `c` matches the character class `["']` of `KEY_PRESENT`. -/
def isQuoteChar (c : Char) : Bool := c = dquote || c = squote

/-- Consume the literal `key` from the front of `l`; `none` when `l` does not
start with it. -/
def stripLit : List Char → List Char → Option (List Char)
  | [], l => some l
  | _ :: _, [] => none
  | k :: ks, c :: cs => if c = k then stripLit ks cs else none

/-- Match the regex fragment `\s*:` at the front of `l`. -/
def matchSpacesColon : List Char → Bool
  | [] => false
  | c :: rest => if c = ':' then true else if isPySpace c then matchSpacesColon rest else false

/-- Match the regex fragment `["']?\s*:` at the front of `l`. -/
def matchTail (l : List Char) : Bool :=
  (match l with
   | c :: rest => isQuoteChar c && matchSpacesColon rest
   | [] => false)
  || matchSpacesColon l

/-- Match the full `KEY_PRESENT` pattern `["']?key["']?\s*:` at the front of `l`. -/
def matchKeyAt (key : List Char) (l : List Char) : Bool :=
  (match l with
   | c :: rest =>
     isQuoteChar c &&
       (match stripLit key rest with
        | some r => matchTail r
        | none => false)
   | [] => false)
  || (match stripLit key l with
      | some r => matchTail r
      | none => false)

/-- Python `re.search` for the `KEY_PRESENT` pattern: does it match at any
position of `l`?  (The pattern has no anchors, so `re.MULTILINE` is inert.) -/
def searchKey (key : List Char) : List Char → Bool
  | [] => matchKeyAt key []
  | l@(_ :: rest) => matchKeyAt key l || searchKey key rest

/-- The characters of the literal key `on`. -/
def onKey : List Char := ("on").data

/-- The characters of the literal key `jobs`. -/
def jobsKey : List Char := ("jobs").data

/-- Embedding of `_is_probable_workflow`: both the `on` and the `jobs`
`KEY_PRESENT` patterns must be found somewhere in the content. -/
def _is_probable_workflow (content : String) : Bool :=
  searchKey onKey content.data && searchKey jobsKey content.data

/-- Embedding of `is_workflow_directory`: a string path starting with
`.github/workflows/` (a non-string — here `none` — is rejected). -/
def is_workflow_directory : Option String → Bool
  | none => false
  | some p => (".github/workflows/").data.isPrefixOf p.data

/-- Embedding of `is_workflow_path`: `WORKFLOW_REGEX.match(path)` converted to a
boolean, `false` for `None`.  `re.match` anchors at the start; `$` accepts the end
of the string or the position just before a terminal newline; `[^/]*` is any
run of characters other than `/`. -/
def is_workflow_path : Option String → Bool
  | none => false
  | some p =>
    match stripLit ((".github/workflows/").data) p.data with
    | none => false
    | some rest =>
      let core := if rest.getLast? = some '\n' then rest.dropLast else rest
      !core.contains '/' &&
        ((".yml").data.isSuffixOf core || (".yaml").data.isSuffixOf core)

/-- Embedding of a Python `try/except Exception` whose handler returns `handler`:
a normal result passes through, a raised exception selects the handler. -/
def pyTry {α : Type} (body handler : Except Unit α) : Except Unit α :=
  match body with
  | Except.ok a => Except.ok a
  | Except.error _ => handler

/-- Embedding of `_is_valid_workflow`.  `parse` stands for `read_yaml(content)`
(the external ruamel.yaml parser, `Except.error` = raised parse error) and
`validate` for `jsonschema.validate(data, SCHEMA)` (`Except.error` = raised
validation error).  Returns `(is_yaml, is_workflow)`. -/
def _is_valid_workflow {α : Type} (parse : Except Unit α)
    (validate : α → Except Unit Unit) : Except Unit (Bool × Bool) :=
  pyTry
    (match parse with
     | Except.error e => Except.error e
     | Except.ok d =>
       pyTry
         (match validate d with
          | Except.error e => Except.error e
          | Except.ok _ => Except.ok (true, true))
         (Except.ok (true, false)))
    (Except.ok (false, false))

/-- Embedding of `is_valid_workflow`.  `probe` stands for the call
`_is_probable_workflow(content)` together with its possible (hypothetical)
exception; the source wires it to the total function `_is_probable_workflow`,
so in the concrete pipeline it is always `Except.ok`.  Returns
`(is_yaml, is_probable, is_workflow)`. -/
def is_valid_workflow {α : Type} (probe : Except Unit Bool) (parse : Except Unit α)
    (validate : α → Except Unit Unit) : Except Unit (Bool × Bool × Bool) :=
  match pyTry probe (Except.ok false),
        pyTry (_is_valid_workflow parse validate) (Except.ok (false, false)) with
  | Except.ok p, Except.ok (y, w) => Except.ok (y, p, w)
  | Except.error e, _ => Except.error e
  | _, Except.error e => Except.error e

/-!
Embedding of `gigawork/extractors.py`.

The data model mirrors the Python records: `Entry` is the `NamedTuple` of the
source (nullable fields as `Option`), a `Diff` is the slice of a GitPython
`git.Diff` the extractors read (old/new path, old/new blob bytes, raw
change-type code), and a `Commit` is the slice of a `git.Commit` they read
(metadata plus the number of parents; the extraction pipeline only ever asks
whether that number is zero).
-/

/-- Modelled from the spec: `gigawork/change_types.py` — imported by the
extractors as `ChangeTypes` — is not among the provided sources.  Per §3
("Change classification") and §4.3 of the spec it is an enumerated value over
added/modified/deleted/renamed mirroring the underlying VCS raw status codes,
with the mapping add→added, delete→deleted, modify/type-change→modified,
rename→renamed; constructing it from an unrecognized raw code raises a Python
`ValueError`, rendered here as `none` in `ChangeTypes.ofCode`. -/
inductive ChangeTypes where
  | ADDED
  | DELETED
  | MODIFIED
  | RENAMED
deriving DecidableEq, Repr

/-- The string stored in `Entry.change_type` for each normalized change type. -/
def ChangeTypes.value : ChangeTypes → String
  | ADDED => "A"
  | DELETED => "D"
  | MODIFIED => "M"
  | RENAMED => "R"

/-- Modelled from the spec (see `ChangeTypes`): `ChangeTypes(raw_code)`, with
`none` for the `ValueError` raised on an unrecognized raw status code. -/
def ChangeTypes.ofCode (code : String) : Option ChangeTypes :=
  if code = "A" then some ChangeTypes.ADDED
  else if code = "D" then some ChangeTypes.DELETED
  else if code = "M" then some ChangeTypes.MODIFIED
  else if code = "T" then some ChangeTypes.MODIFIED
  else if code = "R" then some ChangeTypes.RENAMED
  else none

/-- The slice of a `git.Commit` the extractors read.  `parent_count` is
`len(commit.parents)`; the pipeline only compares it with zero. -/
structure Commit where
  hexsha : String
  author_name : String
  author_email : String
  committer_name : String
  committer_email : String
  committed_date : Nat
  authored_date : Nat
  parent_count : Nat
deriving DecidableEq, Repr

/-- The slice of a `git.Diff` the extractors read.  A `none` blob is a side of
the diff with no file version (`a_blob`/`b_blob` is `None`). -/
structure Diff where
  a_path : Option String
  b_path : Option String
  a_blob : Option (List Nat)
  b_blob : Option (List Nat)
  change_type : String
deriving DecidableEq, Repr

/-- The `Entry` NamedTuple of the source: one row of the produced dataset. -/
structure Entry where
  commit_hash : String
  author_name : String
  author_email : String
  committer_name : String
  committer_email : String
  committed_date : Nat
  authored_date : Nat
  file_path : Option String
  previous_file_path : Option String
  file_hash : Option String
  previous_file_hash : Option String
  change_type : String
  valid_yaml : Bool
  probably_workflow : Bool
  valid_workflow : Bool
deriving DecidableEq, Repr

/-- The parameter tuple built by `FilesExtractor._get_blob_parameters` and
consumed positionally by `FilesExtractor._process_blob`. -/
structure BlobParams where
  blob : Option (List Nat)
  old_blob : Option (List Nat)
  commit : Commit
  path : Option String
  previous_path : Option String
  change_type : ChangeTypes
deriving DecidableEq, Repr

/-- The contents of one save directory of the content store, as an association
list from file name (within the directory) to file bytes.  Order of writes is
immaterial to the claims; lookup returns the first binding. -/
abbrev FileSystem := List (String × List Nat)

/-- `os.path.exists`/read for the modelled save directory. -/
def fsLookup : FileSystem → String → Option (List Nat)
  | [], _ => none
  | (n, bs) :: rest, name => if n = name then some bs else fsLookup rest name

/-- Creating a new file `name` with contents `bs` in the save directory. -/
def fsWrite (fs : FileSystem) (name : String) (bs : List Nat) : FileSystem :=
  fs ++ [(name, bs)]

namespace FilesExtractor

/-- Embedding of `FilesExtractor._get_blob_content`: a `None` blob yields
`(None, None)`; otherwise the blob bytes and their SHA-256 hex digest. -/
def _get_blob_content (blob : Option (List Nat)) : Option (List Nat) × Option String :=
  match blob with
  | none => (none, none)
  | some data => (some data, some (Sha256.sha256hex data))

/-- One iteration of the loop body of `FilesExtractor._save_content`: skip a
`None` data side (`continue`); otherwise write the bytes under the digest name
unless a file of that name already exists.  (In the real flow the hash is
present exactly when the data is — both come from `_get_blob_content` — so the
`(some, none)` branch is unreachable.) -/
def saveOne (fs : FileSystem) (d : Option (List Nat)) (h : Option String) : FileSystem :=
  match d with
  | none => fs
  | some bytes =>
    match h with
    | none => fs
    | some name => if (fsLookup fs name).isSome then fs else fsWrite fs name bytes

/-- Embedding of `FilesExtractor._save_content`: no-op when no save directory is
configured, otherwise the two `(data, hash)` pairs of the entry are saved in
order. -/
def _save_content (save_directory : Option String) (fs : FileSystem)
    (data old_data : Option (List Nat)) (entry : Entry) : FileSystem :=
  match save_directory with
  | none => fs
  | some _ => saveOne (saveOne fs data entry.file_hash) old_data entry.previous_file_hash

/-- Embedding of `FilesExtractor._get_blob_parameters`: select which sides of
the diff carry blob and path according to the change type, then force the type
to `ADDED` for a parentless commit.  Returns a one-element tuple list. -/
def _get_blob_parameters (diff : Diff) (change_type : ChangeTypes) (commit : Commit) :
    List BlobParams :=
  let sel :=
    if change_type = ChangeTypes.DELETED then
      (none, diff.a_blob, none, diff.a_path)
    else if change_type = ChangeTypes.ADDED then
      (diff.b_blob, none, diff.b_path, none)
    else
      (diff.b_blob, diff.a_blob, diff.b_path, diff.a_path)
  let ct := if commit.parent_count = 0 then ChangeTypes.ADDED else change_type
  [⟨sel.1, sel.2.1, commit, sel.2.2.1, sel.2.2.2, ct⟩]

/-- The classification step inside `FilesExtractor._process_blob`: run
`is_valid_workflow` on the decoded text; its (never-occurring) escaped
exception would be caught by the enclosing `except Exception`, downgrading all
three flags to `false`. -/
def runClassifier {α : Type} (parse : String → Except Unit α)
    (validate : α → Except Unit Unit) (s : String) : Bool × Bool × Bool :=
  match is_valid_workflow (Except.ok (_is_probable_workflow s)) (parse s) validate with
  | Except.ok r => r
  | Except.error _ => (false, false, false)

/-- Embedding of `FilesExtractor._process_blob` (entry construction only; the
`_save_content` side effect is modelled separately on the `FileSystem`).
When the current blob is absent (deleted file) the text is decoded from the old
blob; a decode failure (including both blobs absent) is caught by the enclosing
`except Exception` and downgrades the three flags to `false`.  A `RENAMED`
change whose two digests differ is demoted to `MODIFIED`. -/
def _process_blob {α : Type} (parse : String → Except Unit α)
    (validate : α → Except Unit Unit) (p : BlobParams) : Entry :=
  let dataHash := _get_blob_content p.blob
  let oldHash := _get_blob_content p.old_blob
  let text :=
    (match dataHash.1 with
     | none => oldHash.1
     | some d => some d).bind Utf8.decodeUtf8Str
  let flags :=
    match text with
    | none => (false, false, false)
    | some s => runClassifier parse validate s
  let ct :=
    if p.change_type = ChangeTypes.RENAMED ∧ dataHash.2 ≠ oldHash.2 then
      ChangeTypes.MODIFIED
    else p.change_type
  { commit_hash := p.commit.hexsha
    author_name := p.commit.author_name
    author_email := p.commit.author_email
    committer_name := p.commit.committer_name
    committer_email := p.commit.committer_email
    committed_date := p.commit.committed_date
    authored_date := p.commit.authored_date
    file_path := p.path
    previous_file_path := p.previous_path
    file_hash := dataHash.2
    previous_file_hash := oldHash.2
    change_type := ct.value
    valid_yaml := flags.1
    probably_workflow := flags.2.1
    valid_workflow := flags.2.2 }

/-- Embedding of `diff.a_path.startswith(directory)` where the path may be
absent.  (GitPython hands the extractors string paths on the sides it
populates; both-side-`None` diffs do not arise.) -/
def optStartsWith (p : Option String) (directory : String) : Bool :=
  match p with
  | none => false
  | some s => directory.data.isPrefixOf s.data

/-- Embedding of `FilesExtractor._should_process_diff`. -/
def _should_process_diff (directory : String) (diff : Diff) : Bool :=
  optStartsWith diff.a_path directory || optStartsWith diff.b_path directory

/-- The entries produced by `FilesExtractor._process_diff` for one diff: none
when the raw change-type code is unrecognized (`ValueError` caught, diff
logged and skipped), otherwise one entry per blob-parameter tuple. -/
def _process_diff_entries {α : Type} (parse : String → Except Unit α)
    (validate : α → Except Unit Unit) (diff : Diff) (commit : Commit) : List Entry :=
  match ChangeTypes.ofCode diff.change_type with
  | none => []
  | some ct => (_get_blob_parameters diff ct commit).map (_process_blob parse validate)

/-- The entries produced by `FilesExtractor._extract_files` for one commit:
diffs not touching the watched directory are skipped, the rest are processed
in order. -/
def _extract_files_entries {α : Type} (parse : String → Except Unit α)
    (validate : α → Except Unit Unit) (directory : String) (commit : Commit)
    (diffs : List Diff) : List Entry :=
  (diffs.filter (_should_process_diff directory)).flatMap
    (fun d => _process_diff_entries parse validate d commit)

end FilesExtractor

namespace PathSeparatorFilesExtractor

/-- Embedding of `PathSeparatorFilesExtractor._get_save_index`: the index of
the first separator predicate accepting the entry, `none` when no separator
matches. -/
def _get_save_index : List (Entry → Bool) → Entry → Option Nat
  | [], _ => none
  | sep :: rest, e =>
    if sep e then some 0 else (_get_save_index rest e).map (fun i => i + 1)

/-- `self.entries[i].append(e)` on the per-partition accumulation lists. -/
def appendAt : List (List Entry) → Nat → Entry → List (List Entry)
  | [], _, _ => []
  | l :: rest, 0, e => (l ++ [e]) :: rest
  | l :: rest, i + 1, e => l :: appendAt rest i e

/-- Embedding of `PathSeparatorFilesExtractor._save_entry`: append the entry to
the partition list selected by `_get_save_index`, or to none at all. -/
def _save_entry (separators : List (Entry → Bool)) (lists : List (List Entry))
    (e : Entry) : List (List Entry) :=
  match _get_save_index separators e with
  | none => lists
  | some i => appendAt lists i e

end PathSeparatorFilesExtractor

/-- `WorkflowsExtractor.WORKFLOWS_DIRECTORY`. -/
def WORKFLOWS_DIRECTORY : String := ".github/workflows"

/-- The input of one `_extract_files` step of the history walk: a commit and
the diffs of that commit against its first parent (or against the empty tree
for a root commit). -/
structure CommitData where
  commit : Commit
  diffs : List Diff
deriving Repr

namespace WorkflowsExtractor

/-- Embedding of `WorkflowsExtractor._is_auxiliary`: take the current path, or
the previous one when the current is null; the entry is auxiliary unless that
path lies under `.github/workflows/` and the entry is schema-valid or
probable-workflow. -/
def _is_auxiliary (e : Entry) : Bool :=
  let p :=
    match e.file_path with
    | some q => some q
    | none => e.previous_file_path
  !(is_workflow_directory p && (e.valid_workflow || e.probably_workflow))

/-- The separator list built by `WorkflowsExtractor.__init__`: the primary
predicate, plus a catch-all auxiliary predicate when `save_auxiliaries` is
requested. -/
def separators (save_auxiliaries : Bool) : List (Entry → Bool) :=
  [fun e => !_is_auxiliary e] ++
    (if save_auxiliaries then [fun _ => true] else [])

/-- Embedding of `FilesExtractor.extract` as inherited by
`WorkflowsExtractor`: fold every walked commit through `_extract_files`,
routing each produced entry with `_save_entry`.  The second component is the
Python return value of `extract` — the method body has no `return` statement,
so it returns `None`, rendered `none`. -/
def extract {α : Type} (parse : String → Except Unit α)
    (validate : α → Except Unit Unit) (save_auxiliaries : Bool)
    (walk : List CommitData) : List (List Entry) × Option (List Entry) :=
  let seps := separators save_auxiliaries
  let st0 := List.replicate seps.length ([] : List Entry)
  let final := walk.foldl
    (fun st cd =>
      (FilesExtractor._extract_files_entries parse validate WORKFLOWS_DIRECTORY
          cd.commit cd.diffs).foldl
        (PathSeparatorFilesExtractor._save_entry seps) st)
    st0
  (final, none)

/-- Embedding of `WorkflowsExtractor.get_entries`: the primary partition list. -/
def get_entries (st : List (List Entry)) : List Entry := st.getD 0 []

/-- Embedding of `WorkflowsExtractor.get_auxiliary_entries`: the auxiliary
partition list, or `None` when no auxiliary partition was configured. -/
def get_auxiliary_entries (st : List (List Entry)) : Option (List Entry) :=
  if 1 < st.length then some (st.getD 1 []) else none

end WorkflowsExtractor

/-!
Specification-side definitions used for refinement comparisons.
-/

/-- Split a character list into its newline-separated lines. -/
def splitLines : List Char → List (List Char)
  | [] => [[]]
  | c :: rest =>
    if c = '\n' then [] :: splitLines rest
    else
      match splitLines rest with
      | l :: ls => (c :: l) :: ls
      | [] => [[c]]

/-- Drop leading whitespace characters. -/
def dropLeadingWs (l : List Char) : List Char := l.dropWhile isPySpace

/-- Whether some line of the content carries `key` as a top-level-looking
mapping key: after optional leading whitespace the line begins with the
(optionally quoted) key followed by optional whitespace and a colon. -/
def specHasTopKey (key : List Char) (content : String) : Bool :=
  (splitLines content.data).any (fun line => matchKeyAt key (dropLeadingWs line))

/-- Specification-side rendering of the probable-workflow predicate, for
comparison with the source-derived `_is_probable_workflow`: the raw text
contains, as a top-level-looking mapping key (tolerant of quoting and leading
whitespace), both an `on` key and a `jobs` key. -/
def spec_probable_workflow (content : String) : Bool :=
  specHasTopKey onKey content && specHasTopKey jobsKey content

/-- Whether a character is a lowercase hexadecimal digit (0-9 or a-f). -/
def isLowerHexDigit (c : Char) : Bool :=
  (48 ≤ c.toNat && c.toNat ≤ 57) || (97 ≤ c.toNat && c.toNat ≤ 102)

/-!
Sanity anchors and helper lemmas.
-/

/-- The SHA-256 embedding reproduces the FIPS 180-4 test vector for the empty
message. -/
theorem sha256hex_empty :
    Sha256.sha256hex [] = "e3b0c44298fc1c149afbf4c8996fb92427ae41e4649b934ca495991b7852b855" := by
  decide

/-- The whitespace class of the `KEY_PRESENT` embedding covers non-ASCII
Python `\s` members: a no-break space between the `on` key and its colon
still sets the probable-workflow flag, as in the source. -/
theorem probable_workflow_accepts_nbsp :
    _is_probable_workflow ("on\u00A0:\njobs: y") = true := by
  decide

/-- The whitespace class of the `KEY_PRESENT` embedding covers the ASCII
information separators (0x1C-0x1F), which Python `\s` matches on str
patterns. -/
theorem probable_workflow_accepts_fs :
    _is_probable_workflow ("on\x1C:\njobs: y") = true := by
  decide

/-- The SHA-256 embedding reproduces the FIPS 180-4 test vector for `"abc"`. -/
theorem sha256hex_abc :
    Sha256.sha256hex [97, 98, 99]
      = "ba7816bf8f01cfea414140de5dae2223b00361a396177a9cb410ff61f20015ad" := by
  decide

theorem fsLookup_write_self (name : String) (bs : List Nat) :
    ∀ fs : FileSystem, fsLookup fs name = none →
      fsLookup (fsWrite fs name bs) name = some bs := by
  intro fs
  induction fs with
  | nil => intro _; simp [fsWrite, fsLookup]
  | cons p rest ih =>
    intro h
    obtain ⟨n, b0⟩ := p
    by_cases hn : n = name
    · simp [fsLookup, hn] at h
    · simpa [fsWrite, fsLookup, hn] using ih (by simpa [fsLookup, hn] using h)

theorem hexDigit_lowerHex : ∀ n < 16, isLowerHexDigit (Sha256.hexDigit n) = true := by
  decide

theorem toHexFix_lowerHex : ∀ (w x : Nat), (Sha256.toHexFix x w).all isLowerHexDigit = true := by
  intro w
  induction w with
  | zero => intro x; rfl
  | succ w ih =>
    intro x
    simp only [Sha256.toHexFix, List.all_append, ih (x / 16), Bool.true_and, List.all_cons,
      List.all_nil, Bool.and_true]
    exact hexDigit_lowerHex (x % 16) (Nat.mod_lt x (by norm_num))

theorem sha256hex_lowerHex (msg : List Nat) :
    (Sha256.sha256hex msg).data.all isLowerHexDigit = true := by
  have h : ∀ ws : List Nat,
      (ws.foldr (fun w acc => Sha256.toHexFix w 8 ++ acc) []).all isLowerHexDigit = true := by
    intro ws
    induction ws with
    | nil => rfl
    | cons w ws ih => simp [List.foldr, List.all_append, toHexFix_lowerHex, ih]
  exact h ((Sha256.chunks (Sha256.pad msg)).foldl Sha256.processBlock Sha256.initH)

theorem appendAt_getD_ne :
    ∀ (lists : List (List Entry)) (i j : Nat) (e : Entry), j ≠ i →
      (PathSeparatorFilesExtractor.appendAt lists i e).getD j [] = lists.getD j [] := by
  intro lists
  induction lists with
  | nil => intro i j e _; rfl
  | cons l rest ih =>
    intro i j e hne
    cases i with
    | zero =>
      cases j with
      | zero => exact absurd rfl hne
      | succ j => rfl
    | succ i =>
      cases j with
      | zero => rfl
      | succ j =>
        simpa [PathSeparatorFilesExtractor.appendAt] using
          ih i j e (fun h => hne (by rw [h]))

theorem appendAt_getD_eq :
    ∀ (lists : List (List Entry)) (i : Nat) (e : Entry), i < lists.length →
      (PathSeparatorFilesExtractor.appendAt lists i e).getD i [] = lists.getD i [] ++ [e] := by
  intro lists
  induction lists with
  | nil => intro i e h; exact absurd h (Nat.not_lt_zero i)
  | cons l rest ih =>
    intro i e h
    cases i with
    | zero => rfl
    | succ i =>
      simpa [PathSeparatorFilesExtractor.appendAt] using
        ih i e (Nat.lt_of_succ_lt_succ h)

theorem getIndex_spec :
    ∀ (seps : List (Entry → Bool)) (e : Entry) (i : Nat),
      PathSeparatorFilesExtractor._get_save_index seps e = some i →
      i < seps.length ∧ (seps.getD i (fun _ => false)) e = true ∧
        ∀ j, j < i → (seps.getD j (fun _ => false)) e = false := by
  intro seps
  induction seps with
  | nil => intro e i h; simp [PathSeparatorFilesExtractor._get_save_index] at h
  | cons sep rest ih =>
    intro e i h
    by_cases hs : sep e
    · simp [PathSeparatorFilesExtractor._get_save_index, hs] at h
      subst h
      exact ⟨Nat.succ_pos _, by simpa using hs,
        fun j hj => absurd hj (Nat.not_lt_zero j)⟩
    · simp [PathSeparatorFilesExtractor._get_save_index, hs] at h
      obtain ⟨i2, hi2, rfl⟩ := h
      obtain ⟨hlen, hcur, hprev⟩ := ih e i2 hi2
      refine ⟨Nat.succ_lt_succ hlen, by simpa using hcur, ?_⟩
      intro j hj
      cases j with
      | zero => simpa using (Bool.eq_false_iff.mpr hs)
      | succ j => simpa using hprev j (Nat.lt_of_succ_lt_succ hj)

/-- C3: storing a byte sequence in the content store names the file by the
lowercase hex SHA-256 digest of the bytes, is idempotent (a second store of the
same bytes performs no write since the digest already names an existing file),
and round-trips: the stored file holds exactly the original bytes. -/
theorem content_store_idempotent_roundtrip (fs : FileSystem) (b : List Nat) :
    (FilesExtractor._get_blob_content (some b)).2 = some (Sha256.sha256hex b) ∧
    (Sha256.sha256hex b).data.all isLowerHexDigit = true ∧
    FilesExtractor.saveOne
        (FilesExtractor.saveOne fs (some b) (some (Sha256.sha256hex b)))
        (some b) (some (Sha256.sha256hex b))
      = FilesExtractor.saveOne fs (some b) (some (Sha256.sha256hex b)) ∧
    (fsLookup fs (Sha256.sha256hex b) = none →
      fsLookup (FilesExtractor.saveOne fs (some b) (some (Sha256.sha256hex b)))
          (Sha256.sha256hex b)
        = some b) ∧
    (fsLookup fs (Sha256.sha256hex b) ≠ none →
      FilesExtractor.saveOne fs (some b) (some (Sha256.sha256hex b)) = fs) := by
  refine ⟨rfl, sha256hex_lowerHex b, ?_, ?_, ?_⟩
  · cases hc : fsLookup fs (Sha256.sha256hex b) with
    | some bs => simp [FilesExtractor.saveOne, hc]
    | none =>
      have hw := fsLookup_write_self (Sha256.sha256hex b) b fs hc
      simp [FilesExtractor.saveOne, hc, hw]
  · intro hc
    have hw := fsLookup_write_self (Sha256.sha256hex b) b fs hc
    simp [FilesExtractor.saveOne, hc, hw]
  · intro hc
    cases hc2 : fsLookup fs (Sha256.sha256hex b) with
    | none => exact absurd hc2 hc
    | some bs => simp [FilesExtractor.saveOne, hc2]

/-- C3 witness: a concrete store of the bytes of `"hi"` into an empty save
directory round-trips. -/
theorem content_store_idempotent_roundtrip_witness :
    fsLookup (FilesExtractor.saveOne [] (some [104, 105])
        (some (Sha256.sha256hex [104, 105]))) (Sha256.sha256hex [104, 105])
      = some [104, 105] :=
  (content_store_idempotent_roundtrip [] [104, 105]).2.2.2.1 rfl

/-- C2: every entry produced from a commit with zero parents carries change
type `"A"` (added), regardless of the raw diff status. -/
theorem root_commit_entries_added {α : Type} (parse : String → Except Unit α)
    (validate : α → Except Unit Unit) (diff : Diff) (commit : Commit)
    (hroot : commit.parent_count = 0) :
    (FilesExtractor._process_diff_entries parse validate diff commit).all
      (fun e => e.change_type == "A") = true := by
  unfold FilesExtractor._process_diff_entries
  cases hct : ChangeTypes.ofCode diff.change_type with
  | none => rfl
  | some ct =>
    simp only [FilesExtractor._get_blob_parameters, hroot, if_pos, List.map_cons,
      List.map_nil, List.all_cons, List.all_nil, Bool.and_true, if_true]
    unfold FilesExtractor._process_blob
    simp [ChangeTypes.value]

/-- C2 witness: a parentless commit whose diff has raw status `"D"` still
yields only `"A"` entries. -/
theorem root_commit_entries_added_witness :
    (FilesExtractor._process_diff_entries (fun _ => Except.error ())
        (fun _ : Unit => Except.ok ())
        ⟨some (".github/workflows/a.yml"), none, some [111, 110], none, "D"⟩
        ⟨"cafe", "an", "ae", "cn", "ce", 10, 9, 0⟩).all
      (fun e => e.change_type == "A") = true :=
  root_commit_entries_added (fun _ => Except.error ()) (fun _ : Unit => Except.ok ())
    ⟨some (".github/workflows/a.yml"), none, some [111, 110], none, "D"⟩
    ⟨"cafe", "an", "ae", "cn", "ce", 10, 9, 0⟩ rfl

/-- C7: a diff whose raw change-type code is unrecognized produces no entry and
its presence does not disturb the processing of the other diffs of the same
commit. -/
theorem unrecognized_change_type_skipped {α : Type} (parse : String → Except Unit α)
    (validate : α → Except Unit Unit) (directory : String) (commit : Commit)
    (d : Diff) (pre post : List Diff)
    (h : ChangeTypes.ofCode d.change_type = none) :
    FilesExtractor._process_diff_entries parse validate d commit = [] ∧
    FilesExtractor._extract_files_entries parse validate directory commit
        (pre ++ d :: post)
      = FilesExtractor._extract_files_entries parse validate directory commit
          (pre ++ post) := by
  have h1 : FilesExtractor._process_diff_entries parse validate d commit = [] := by
    unfold FilesExtractor._process_diff_entries
    rw [h]
  refine ⟨h1, ?_⟩
  unfold FilesExtractor._extract_files_entries
  cases hd : FilesExtractor._should_process_diff directory d with
  | false => simp [List.filter_append, List.filter_cons, hd]
  | true => simp [List.filter_append, List.filter_cons, hd, h1]

/-- C7 witness: a diff with raw status `"X"` inside a two-diff commit is
skipped without affecting the other diff. -/
theorem unrecognized_change_type_skipped_witness :
    FilesExtractor._extract_files_entries (fun _ => Except.error ())
        (fun _ : Unit => Except.ok ()) (".github/workflows")
        ⟨"cafe", "an", "ae", "cn", "ce", 10, 9, 1⟩
        ([] ++ ⟨some (".github/workflows/a.yml"), none, some [111, 110], none, "X"⟩ ::
          [⟨some (".github/workflows/b.yml"), none, some [111, 110], none, "A"⟩])
      = FilesExtractor._extract_files_entries (fun _ => Except.error ())
          (fun _ : Unit => Except.ok ()) (".github/workflows")
          ⟨"cafe", "an", "ae", "cn", "ce", 10, 9, 1⟩
          ([] ++ [⟨some (".github/workflows/b.yml"), none, some [111, 110], none, "A"⟩]) :=
  (unrecognized_change_type_skipped (fun _ => Except.error ())
    (fun _ : Unit => Except.ok ()) (".github/workflows")
    ⟨"cafe", "an", "ae", "cn", "ce", 10, 9, 1⟩
    ⟨some (".github/workflows/a.yml"), none, some [111, 110], none, "X"⟩
    []
    [⟨some (".github/workflows/b.yml"), none, some [111, 110], none, "A"⟩] rfl).2

/-- C4: a rename diff on a commit with a parent yields a single entry carrying
both the current and the previous path and both content digests; its change
type is `"M"` (modified) exactly when the digest of the new blob differs from
the digest of the old blob, and stays `"R"` (renamed) when the digests are
equal. -/
theorem rename_demotes_to_modified {α : Type} (parse : String → Except Unit α)
    (validate : α → Except Unit Unit) (diff : Diff) (commit : Commit)
    (hpar : 0 < commit.parent_count) (hct : diff.change_type = "R") :
    let e := FilesExtractor._process_blob parse validate
      ⟨diff.b_blob, diff.a_blob, commit, diff.b_path, diff.a_path, ChangeTypes.RENAMED⟩
    FilesExtractor._process_diff_entries parse validate diff commit = [e] ∧
    e.file_path = diff.b_path ∧
    e.previous_file_path = diff.a_path ∧
    e.file_hash = (FilesExtractor._get_blob_content diff.b_blob).2 ∧
    e.previous_file_hash = (FilesExtractor._get_blob_content diff.a_blob).2 ∧
    (e.change_type = "M" ↔
      (FilesExtractor._get_blob_content diff.b_blob).2
        ≠ (FilesExtractor._get_blob_content diff.a_blob).2) ∧
    ((FilesExtractor._get_blob_content diff.b_blob).2
        = (FilesExtractor._get_blob_content diff.a_blob).2 →
      e.change_type = "R") := by
  intro e
  have hpc : ¬ commit.parent_count = 0 := Nat.pos_iff_ne_zero.mp hpar
  have hofr : ChangeTypes.ofCode diff.change_type = some ChangeTypes.RENAMED := by
    rw [hct]; rfl
  have h1 : FilesExtractor._process_diff_entries parse validate diff commit = [e] := by
    unfold FilesExtractor._process_diff_entries
    rw [hofr]
    simp [FilesExtractor._get_blob_parameters, hpc]
  by_cases hne : (FilesExtractor._get_blob_content diff.b_blob).2
      = (FilesExtractor._get_blob_content diff.a_blob).2
  · have hcR : e.change_type = "R" := by
      simp [e, FilesExtractor._process_blob, hne, ChangeTypes.value]
    refine ⟨h1, rfl, rfl, rfl, rfl, ?_, fun _ => hcR⟩
    constructor
    · intro hm
      rw [hcR] at hm
      exact absurd hm (by decide)
    · intro hd
      exact absurd hne hd
  · have hcM : e.change_type = "M" := by
      simp [e, FilesExtractor._process_blob, hne, ChangeTypes.value]
    exact ⟨h1, rfl, rfl, rfl, rfl, ⟨fun _ => hne, fun _ => hcM⟩, fun hd => absurd hd hne⟩

/-- C4 witness: a concrete rename with identical blob contents keeps change
type `"R"`. -/
theorem rename_demotes_to_modified_witness :
    (FilesExtractor._process_blob (fun _ => Except.error ())
        (fun _ : Unit => Except.ok ())
        ⟨some [111, 110], some [111, 110],
          ⟨"cafe", "an", "ae", "cn", "ce", 10, 9, 1⟩,
          some (".github/workflows/b.yml"), some (".github/workflows/a.yml"),
          ChangeTypes.RENAMED⟩).change_type = "R" :=
  (rename_demotes_to_modified (fun _ => Except.error ())
    (fun _ : Unit => Except.ok ())
    ⟨some (".github/workflows/a.yml"), some (".github/workflows/b.yml"),
      some [111, 110], some [111, 110], "R"⟩
    ⟨"cafe", "an", "ae", "cn", "ce", 10, 9, 1⟩
    (by decide) rfl).2.2.2.2.2.2 rfl

/-- C5: the workflow classifier never raises to its caller: for every outcome
of the probable-workflow check, the YAML parse, and the schema validation —
including raised exceptions — `is_valid_workflow` returns normally, and a
raised exception only downgrades the corresponding validity flag(s) to false
(probe failure → probable flag false; parse failure → yaml and workflow flags
false; validation failure after a successful parse → yaml flag true, workflow
flag false). -/
theorem classifier_never_raises {α : Type} (probe : Except Unit Bool)
    (parse : Except Unit α) (validate : α → Except Unit Unit) :
    ∃ y p w, is_valid_workflow probe parse validate = Except.ok (y, p, w) ∧
      (probe = Except.error () → p = false) ∧
      (parse = Except.error () → y = false ∧ w = false) ∧
      (∀ d, parse = Except.ok d → validate d = Except.error () →
        y = true ∧ w = false) := by
  have hprobe : ∃ p, pyTry probe (Except.ok false) = Except.ok p ∧
      (probe = Except.error () → p = false) := by
    cases probe with
    | error u => exact ⟨false, rfl, fun _ => rfl⟩
    | ok b => exact ⟨b, rfl, fun h => by simp at h⟩
  obtain ⟨p, hp, hpdown⟩ := hprobe
  cases parse with
  | error u =>
    cases u
    refine ⟨false, p, false, ?_, hpdown, fun _ => ⟨rfl, rfl⟩, fun d hd => by simp at hd⟩
    unfold is_valid_workflow
    rw [hp]
    rfl
  | ok d =>
    cases hv : validate d with
    | error u =>
      cases u
      refine ⟨true, p, false, ?_, hpdown, fun hpar => by simp at hpar, ?_⟩
      · unfold is_valid_workflow _is_valid_workflow
        rw [hp]
        simp [pyTry, hv]
      · intro d2 hd2 _
        exact ⟨rfl, rfl⟩
    | ok u =>
      refine ⟨true, p, true, ?_, hpdown, fun hpar => by simp at hpar, ?_⟩
      · unfold is_valid_workflow _is_valid_workflow
        rw [hp]
        simp [pyTry, hv]
      · intro d2 hd2 hv2
        injection hd2 with hd2e
        subst hd2e
        rw [hv] at hv2
        exact absurd hv2 (by simp)

/-- C5 witness: with a raising probe and a raising parser, the classifier
still returns normally, with all flags downgraded to false. -/
theorem classifier_never_raises_witness :
    is_valid_workflow (α := Unit) (Except.error ()) (Except.error ())
        (fun _ => Except.ok ())
      = Except.ok (false, false, false) := by
  obtain ⟨y, p, w, hres, hp, hpar, _⟩ :=
    classifier_never_raises (α := Unit) (Except.error ()) (Except.error ())
      (fun _ => Except.ok ())
  rw [hres, hp rfl, (hpar rfl).1, (hpar rfl).2]

/-- C10: a deletion diff (no current blob) on a commit with a parent yields a
single entry whose three validity flags are computed from the decoded text of
the old blob — the content of the file version being deleted. -/
theorem deletion_flags_from_old_blob {α : Type} (parse : String → Except Unit α)
    (validate : α → Except Unit Unit) (diff : Diff) (commit : Commit)
    (bs : List Nat) (s : String)
    (hpar : 0 < commit.parent_count) (hct : diff.change_type = "D")
    (hblob : diff.a_blob = some bs) (hdec : Utf8.decodeUtf8Str bs = some s) :
    FilesExtractor._process_diff_entries parse validate diff commit
      = [FilesExtractor._process_blob parse validate
          ⟨none, some bs, commit, none, diff.a_path, ChangeTypes.DELETED⟩] ∧
    ((FilesExtractor._process_blob parse validate
        ⟨none, some bs, commit, none, diff.a_path, ChangeTypes.DELETED⟩).valid_yaml,
      (FilesExtractor._process_blob parse validate
        ⟨none, some bs, commit, none, diff.a_path, ChangeTypes.DELETED⟩).probably_workflow,
      (FilesExtractor._process_blob parse validate
        ⟨none, some bs, commit, none, diff.a_path, ChangeTypes.DELETED⟩).valid_workflow)
      = FilesExtractor.runClassifier parse validate s := by
  have hpc : ¬ commit.parent_count = 0 := Nat.pos_iff_ne_zero.mp hpar
  have hofd : ChangeTypes.ofCode diff.change_type = some ChangeTypes.DELETED := by
    rw [hct]; rfl
  constructor
  · unfold FilesExtractor._process_diff_entries
    rw [hofd]
    simp [FilesExtractor._get_blob_parameters, hpc, hblob]
  · simp [FilesExtractor._process_blob, FilesExtractor._get_blob_content,
      Option.bind, hdec]

/-- C10 witness: deleting a file whose old blob decodes to `"on"` classifies
that text. -/
theorem deletion_flags_from_old_blob_witness :
    ((FilesExtractor._process_blob (fun _ => Except.error ())
        (fun _ : Unit => Except.ok ())
        ⟨none, some [111, 110], ⟨"cafe", "an", "ae", "cn", "ce", 10, 9, 1⟩,
          none, some (".github/workflows/a.yml"), ChangeTypes.DELETED⟩).valid_yaml,
      (FilesExtractor._process_blob (fun _ => Except.error ())
        (fun _ : Unit => Except.ok ())
        ⟨none, some [111, 110], ⟨"cafe", "an", "ae", "cn", "ce", 10, 9, 1⟩,
          none, some (".github/workflows/a.yml"), ChangeTypes.DELETED⟩).probably_workflow,
      (FilesExtractor._process_blob (fun _ => Except.error ())
        (fun _ : Unit => Except.ok ())
        ⟨none, some [111, 110], ⟨"cafe", "an", "ae", "cn", "ce", 10, 9, 1⟩,
          none, some (".github/workflows/a.yml"), ChangeTypes.DELETED⟩).valid_workflow)
      = FilesExtractor.runClassifier (fun _ => Except.error ())
          (fun _ : Unit => Except.ok ()) ("on") :=
  (deletion_flags_from_old_blob (fun _ => Except.error ())
    (fun _ : Unit => Except.ok ())
    ⟨some (".github/workflows/a.yml"), none, some [111, 110], none, "D"⟩
    ⟨"cafe", "an", "ae", "cn", "ce", 10, 9, 1⟩ [111, 110] ("on")
    (by decide) rfl rfl (by decide)).2

/-- C1 counterexample: an entry for `.github/workflows/ci.txt` that is
schema-valid is routed by the router to the primary partition (index 0, with
auxiliary capture enabled) although its file path does not match
`.github/workflows/*.yml` or `*.yaml` — the claimed primary predicate is
false on it. -/
theorem router_primary_counterexample :
    PathSeparatorFilesExtractor._get_save_index (WorkflowsExtractor.separators true)
        ⟨"c", "a", "ae", "cn", "ce", 1, 1, some (".github/workflows/ci.txt"), none,
          none, none, "A", false, false, true⟩
      = some 0 ∧
    is_workflow_path (some (".github/workflows/ci.txt")) = false := by
  decide

/-- C1 (amended): the router assigns an entry to the primary partition iff its
file path (falling back to the previous path when the current one is null)
starts with `.github/workflows/` — not necessarily matching `*.yml`/`*.yaml` —
and the entry is schema-valid or probable-workflow; an entry failing that
predicate goes to the auxiliary partition when auxiliary capture is enabled
and to no partition when it is not. -/
theorem router_primary_iff (e : Entry) (save_auxiliaries : Bool) :
    (PathSeparatorFilesExtractor._get_save_index
        (WorkflowsExtractor.separators save_auxiliaries) e = some 0 ↔
      (is_workflow_directory
          (match e.file_path with
           | some q => some q
           | none => e.previous_file_path)
        && (e.valid_workflow || e.probably_workflow)) = true) ∧
    (WorkflowsExtractor._is_auxiliary e = true →
      PathSeparatorFilesExtractor._get_save_index
          (WorkflowsExtractor.separators save_auxiliaries) e
        = if save_auxiliaries then some 1 else none) := by
  have hb : WorkflowsExtractor._is_auxiliary e
      = !(is_workflow_directory
            (match e.file_path with
             | some q => some q
             | none => e.previous_file_path)
          && (e.valid_workflow || e.probably_workflow)) := rfl
  cases hbb : (is_workflow_directory
      (match e.file_path with
       | some q => some q
       | none => e.previous_file_path)
    && (e.valid_workflow || e.probably_workflow)) with
  | true =>
    have haux : WorkflowsExtractor._is_auxiliary e = false := by rw [hb, hbb]; rfl
    constructor
    · constructor
      · intro _; rfl
      · intro _
        cases save_auxiliaries <;>
          simp [WorkflowsExtractor.separators,
            PathSeparatorFilesExtractor._get_save_index, haux]
    · intro h
      rw [haux] at h
      exact absurd h (by decide)
  | false =>
    have haux : WorkflowsExtractor._is_auxiliary e = true := by rw [hb, hbb]; rfl
    have hidx : PathSeparatorFilesExtractor._get_save_index
        (WorkflowsExtractor.separators save_auxiliaries) e
        = if save_auxiliaries then some 1 else none := by
      cases save_auxiliaries <;>
        simp [WorkflowsExtractor.separators,
          PathSeparatorFilesExtractor._get_save_index, haux]
    constructor
    · rw [hidx]
      constructor
      · intro h
        cases save_auxiliaries <;> simp at h
      · intro h
        exact absurd h (by simp)
    · intro _
      exact hidx

/-- C1 witness: a `README.md` entry with no validity flags is auxiliary and,
with auxiliary capture enabled, is routed to partition index 1. -/
theorem router_primary_iff_witness :
    PathSeparatorFilesExtractor._get_save_index (WorkflowsExtractor.separators true)
        ⟨"c", "a", "ae", "cn", "ce", 1, 1, some ("README.md"), none, none, none,
          "A", false, false, false⟩
      = if true then some 1 else none :=
  (router_primary_iff
    ⟨"c", "a", "ae", "cn", "ce", 1, 1, some ("README.md"), none, none, none,
      "A", false, false, false⟩ true).2 (by decide)

theorem _is_valid_workflow_ok {α : Type} (parse : Except Unit α)
    (validate : α → Except Unit Unit) :
    ∃ yw, _is_valid_workflow parse validate = Except.ok yw := by
  cases parse with
  | error u => exact ⟨(false, false), rfl⟩
  | ok d =>
    cases hv : validate d with
    | error u => exact ⟨(true, false), by unfold _is_valid_workflow; simp [pyTry, hv]⟩
    | ok u => exact ⟨(true, true), by unfold _is_valid_workflow; simp [pyTry, hv]⟩

/-- C6 counterexample: `"action: x\njobs: y"` has no `on` key at all — in
particular none as a top-level-looking mapping key (the spec-side predicate
rejects it) — yet the probable-workflow flag is true, because the unanchored
search finds the `on:` pattern inside the identifier `action:`. -/
theorem probable_workflow_counterexample :
    _is_probable_workflow ("action: x\njobs: y") = true ∧
    spec_probable_workflow ("action: x\njobs: y") = false := by
  decide

/-- C6 (amended): the probable-workflow flag is true iff the raw text contains
— anywhere, not only as a top-level-looking key, even inside a longer
identifier such as `action:` — a substring of the form optional quote, key,
optional quote, optional whitespace, colon, for both the `on` and the `jobs`
key; the flag is a function of the raw text alone, independent of the YAML
parse outcome, and it can be true while the yaml flag is false. -/
theorem probable_flag_characterization :
    (∀ s : String, _is_probable_workflow s
        = (searchKey onKey s.data && searchKey jobsKey s.data)) ∧
    (∀ (key : List Char) (l : List Char), searchKey key l = true ↔
      ∃ l1 l2, l = l1 ++ l2 ∧ matchKeyAt key l2 = true) ∧
    (∀ {α : Type} (s : String) (parse : Except Unit α)
        (validate : α → Except Unit Unit),
      ∃ y w, is_valid_workflow (Except.ok (_is_probable_workflow s)) parse validate
        = Except.ok (y, _is_probable_workflow s, w)) ∧
    is_valid_workflow (α := Unit)
        (Except.ok (_is_probable_workflow ("on: [\njobs:")))
        (Except.error ()) (fun _ => Except.ok ())
      = Except.ok (false, true, false) := by
  refine ⟨fun s => rfl, ?_, ?_, by rfl⟩
  · intro key l
    induction l with
    | nil =>
      constructor
      · intro h
        exact ⟨[], [], rfl, h⟩
      · rintro ⟨l1, l2, heq, hm⟩
        obtain ⟨h1, h2⟩ := List.append_eq_nil.mp heq.symm
        subst h1; subst h2
        exact hm
    | cons c rest ih =>
      constructor
      · intro h
        have h2 : matchKeyAt key (c :: rest) = true ∨ searchKey key rest = true := by
          simpa [searchKey] using h
        rcases h2 with hl | hr
        · exact ⟨[], c :: rest, rfl, hl⟩
        · obtain ⟨l1, l2, heq, hm⟩ := ih.mp hr
          exact ⟨c :: l1, l2, by rw [List.cons_append, heq], hm⟩
      · rintro ⟨l1, l2, heq, hm⟩
        cases l1 with
        | nil =>
          simp only [List.nil_append] at heq
          subst heq
          simp [searchKey, hm]
        | cons a l1 =>
          rw [List.cons_append] at heq
          injection heq with hc hrest
          subst hc
          have := ih.mpr ⟨l1, l2, hrest, hm⟩
          simp [searchKey, this]
  · intro α s parse validate
    obtain ⟨⟨y, w⟩, hok⟩ := _is_valid_workflow_ok parse validate
    refine ⟨y, w, ?_⟩
    unfold is_valid_workflow
    rw [hok]
    rfl

/-- C6 witness: a concrete text whose probable flag is true while its yaml
flag is false (the parse oracle raising on it). -/
theorem probable_flag_characterization_witness :
    is_valid_workflow (α := Unit)
        (Except.ok (_is_probable_workflow ("on: [\njobs:")))
        (Except.error ()) (fun _ => Except.ok ())
      = Except.ok (false, true, false) :=
  probable_flag_characterization.2.2.2

/-- C8: the router appends every produced entry to at most one partition list:
with no accepting separator the lists are unchanged; with first accepting
separator index `i` (all earlier separators reject), only list `i` changes, by
appending the entry at its end; and with auxiliary capture enabled an
auxiliary entry never lands in the primary list. -/
theorem router_appends_at_most_one (seps : List (Entry → Bool))
    (lists : List (List Entry)) (e : Entry) :
    (PathSeparatorFilesExtractor._get_save_index seps e = none →
      PathSeparatorFilesExtractor._save_entry seps lists e = lists) ∧
    (∀ i, PathSeparatorFilesExtractor._get_save_index seps e = some i →
      i < seps.length ∧ (seps.getD i (fun _ => false)) e = true ∧
      (∀ j, j < i → (seps.getD j (fun _ => false)) e = false) ∧
      PathSeparatorFilesExtractor._save_entry seps lists e
        = PathSeparatorFilesExtractor.appendAt lists i e ∧
      (∀ j, j ≠ i →
        (PathSeparatorFilesExtractor._save_entry seps lists e).getD j []
          = lists.getD j []) ∧
      (i < lists.length →
        (PathSeparatorFilesExtractor._save_entry seps lists e).getD i []
          = lists.getD i [] ++ [e])) ∧
    (WorkflowsExtractor._is_auxiliary e = true →
      (PathSeparatorFilesExtractor._save_entry (WorkflowsExtractor.separators true)
          lists e).getD 0 []
        = lists.getD 0 []) := by
  refine ⟨?_, ?_, ?_⟩
  · intro h
    unfold PathSeparatorFilesExtractor._save_entry
    rw [h]
  · intro i h
    obtain ⟨hlen, hcur, hprev⟩ := getIndex_spec seps e i h
    have hsave : PathSeparatorFilesExtractor._save_entry seps lists e
        = PathSeparatorFilesExtractor.appendAt lists i e := by
      unfold PathSeparatorFilesExtractor._save_entry
      rw [h]
    refine ⟨hlen, hcur, hprev, hsave, ?_, ?_⟩
    · intro j hj
      rw [hsave]
      exact appendAt_getD_ne lists i j e hj
    · intro hi
      rw [hsave]
      exact appendAt_getD_eq lists i e hi
  · intro haux
    have hidx : PathSeparatorFilesExtractor._get_save_index
        (WorkflowsExtractor.separators true) e = some 1 := by
      simp [WorkflowsExtractor.separators,
        PathSeparatorFilesExtractor._get_save_index, haux]
    unfold PathSeparatorFilesExtractor._save_entry
    rw [hidx]
    exact appendAt_getD_ne lists 1 0 e (by decide)

/-- C8 witness: routing an auxiliary `README.md` entry with auxiliary capture
enabled leaves the primary list untouched. -/
theorem router_appends_at_most_one_witness :
    (PathSeparatorFilesExtractor._save_entry (WorkflowsExtractor.separators true)
        [[], []]
        ⟨"c", "a", "ae", "cn", "ce", 1, 1, some ("README.md"), none, none, none,
          "A", false, false, false⟩).getD 0 []
      = ([[], []] : List (List Entry)).getD 0 [] :=
  (router_appends_at_most_one [] [[], []]
    ⟨"c", "a", "ae", "cn", "ce", 1, 1, some ("README.md"), none, none, none,
      "A", false, false, false⟩).2.2 (by decide)

/-- C9: `extract` (as inherited by `WorkflowsExtractor`) returns `none` as its
value on every invocation — never the entry list — so a caller that uses its
return value as the entry list receives `None`; the accumulated entries are
exposed only through `get_entries` (partition 0) and `get_auxiliary_entries`
(partition 1 when configured). -/
theorem extract_returns_none {α : Type} (parse : String → Except Unit α)
    (validate : α → Except Unit Unit) (save_auxiliaries : Bool)
    (walk : List CommitData) :
    (WorkflowsExtractor.extract parse validate save_auxiliaries walk).2 = none ∧
    WorkflowsExtractor.get_entries
        (WorkflowsExtractor.extract parse validate save_auxiliaries walk).1
      = (WorkflowsExtractor.extract parse validate save_auxiliaries walk).1.getD 0 [] ∧
    (∀ st : List (List Entry), 1 < st.length →
      WorkflowsExtractor.get_auxiliary_entries st = some (st.getD 1 [])) ∧
    (∀ st : List (List Entry), ¬ 1 < st.length →
      WorkflowsExtractor.get_auxiliary_entries st = none) := by
  refine ⟨rfl, rfl, ?_, ?_⟩
  · intro st h
    simp [WorkflowsExtractor.get_auxiliary_entries, h]
  · intro st h
    simp [WorkflowsExtractor.get_auxiliary_entries, h]

/-- C9 witness: a concrete empty walk still returns `none` from `extract`, and
the auxiliary accessor reads partition 1. -/
theorem extract_returns_none_witness :
    WorkflowsExtractor.get_auxiliary_entries [[], []]
      = some (([[], []] : List (List Entry)).getD 1 []) :=
  (extract_returns_none (α := Unit) (fun _ => Except.error ())
    (fun _ => Except.ok ()) true []).2.2.1 [[], []] (by decide)
